import Mathlib

/-!
Shallow embedding of the financial-math core of `streamlit_house_app.py`
(house-vs-stock investment comparison app) over exact rational arithmetic,
together with theorems settling the specification's claims about it.

Machine floats of the source are modelled by `ℚ` (the claims are stated
"under exact arithmetic"); Python lists by `List ℚ`; a Python run that may
raise an exception by `Except String`.
-/

namespace HouseApp

/-- Running total of the accumulation loop of `values_of_series_of_invest`:
starting from `total`, each step performs `total = total * (1 + rate) + invest`
over the zipped `(invest, rate)` pairs, returning the final total
(the `final_only=True` result of the loop). -/
def totalFrom (total : ℚ) : List (ℚ × ℚ) → ℚ
  | [] => total
  | (invest, rate) :: rest => totalFrom (total * (1 + rate) + invest) rest

/-- Trajectory of the accumulation loop of `values_of_series_of_invest`:
the list `value_over_time` of successive totals appended by the loop
(the `final_only=False` result of the loop), starting from `total`. -/
def accumFrom (total : ℚ) : List (ℚ × ℚ) → List ℚ
  | [] => []
  | (invest, rate) :: rest =>
    (total * (1 + rate) + invest) :: accumFrom (total * (1 + rate) + invest) rest

/-- Embedding of `values_of_series_of_invest`. In beginning-of-period mode the
source pops the first element of each input (raising `IndexError` when a list
is empty) and seeds the total with `first_invest * (1 + first_rate)`; otherwise
the total starts at `0` with an empty trajectory. The loop then iterates over
`zip invest_amounts rate_between_amounts`. `final_only` selects the scalar
total (`Sum.inl`) or the full trajectory (`Sum.inr`). -/
def values_of_series_of_invest (invest_amounts rate_between_amounts : List ℚ)
    (final_only : Bool) (invest_at_begining_of_period : Bool) :
    Except String (ℚ ⊕ List ℚ) :=
  if invest_at_begining_of_period then
    match invest_amounts, rate_between_amounts with
    | i :: is, r :: rs =>
      if final_only then Except.ok (Sum.inl (totalFrom (i * (1 + r)) (is.zip rs)))
      else Except.ok (Sum.inr ((i * (1 + r)) :: accumFrom (i * (1 + r)) (is.zip rs)))
    | _, _ => Except.error "IndexError: pop from empty list"
  else
    if final_only then
      Except.ok (Sum.inl (totalFrom 0 (invest_amounts.zip rate_between_amounts)))
    else
      Except.ok (Sum.inr (accumFrom 0 (invest_amounts.zip rate_between_amounts)))

/-- Scalar result of `values_of_series_of_invest` in its default mode
(`final_only=True`, end-of-period investing), as used by
`compute_mortg_principal`. -/
def vos_final (invest rate : List ℚ) : ℚ := totalFrom 0 (invest.zip rate)

/-- List result of `values_of_series_of_invest` with `final_only=False`
(end-of-period investing), as used by `house_investment` and
`compare_house_invest_vs_stock`. -/
def vos_list (invest rate : List ℚ) : List ℚ := accumFrom 0 (invest.zip rate)

/-- Embedding of `total_of_regular_investment`: closed form for the total of a
regular investment of `reg_invest_value` over `n_periods` periods at constant
`rate`. -/
def total_of_regular_investment (reg_invest_value rate : ℚ) (n_periods : ℕ) : ℚ :=
  if rate = 0 then reg_invest_value * n_periods
  else
    reg_invest_value +
      reg_invest_value * ((1 + rate) - (1 + rate) ^ n_periods) / (1 - (1 + rate))

/-- Embedding of `compute_mortg_principal`: the fixed periodic payment of a
mortgage. Division by zero denotes `0` here; the separate runner
`compute_mortg_principal_run` models the exceptions Python would raise. -/
def compute_mortg_principal (loan_rate loan_amount : ℚ)
    (years_to_maturity n_payment_per_year : ℕ) : ℚ :=
  if loan_rate = 0 then
    loan_amount / ((years_to_maturity * n_payment_per_year : ℕ) : ℚ)
  else
    loan_amount * (1 + loan_rate / (n_payment_per_year : ℚ)) ^ (years_to_maturity * n_payment_per_year) /
      vos_final (List.replicate (years_to_maturity * n_payment_per_year) 1)
        (List.replicate (years_to_maturity * n_payment_per_year) (loan_rate / (n_payment_per_year : ℚ)))

/-- Python division: raises `ZeroDivisionError` on a zero denominator instead
of returning a value. -/
def pyDiv (a b : ℚ) : Except String ℚ :=
  if b = 0 then Except.error "ZeroDivisionError" else Except.ok (a / b)

/-- Python exponentiation with an integer exponent: `0 ** e` raises
`ZeroDivisionError` for negative `e`. -/
def pyPow (b : ℚ) (e : ℤ) : Except String ℚ :=
  if b = 0 ∧ e < 0 then Except.error "ZeroDivisionError" else Except.ok (b ^ e)

/-- Run-level embedding of `compute_mortg_principal` with unconstrained integer
`years_to_maturity` and `n_payment_per_year`, tracking the exceptions a Python
run would raise: `loan_amount / (years_to_maturity * n_payment_per_year)` on a
zero rate, otherwise `loan_rate / n_payment_per_year`, the compounding power,
the accumulator over `[1] * n_periods` (empty when `n_periods ≤ 0`, as in
Python list repetition), and the final division. -/
def compute_mortg_principal_run (loan_rate loan_amount : ℚ)
    (years_to_maturity n_payment_per_year : ℤ) : Except String ℚ :=
  if loan_rate = 0 then
    pyDiv loan_amount ((years_to_maturity * n_payment_per_year : ℤ) : ℚ)
  else
    match pyDiv loan_rate (n_payment_per_year : ℚ) with
    | Except.error e => Except.error e
    | Except.ok period_rate =>
      match pyPow (1 + period_rate) (years_to_maturity * n_payment_per_year) with
      | Except.error e => Except.error e
      | Except.ok growth =>
        pyDiv (loan_amount * growth)
          (vos_final (List.replicate (years_to_maturity * n_payment_per_year).toNat 1)
            (List.replicate (years_to_maturity * n_payment_per_year).toNat period_rate))

/-- State of the amortization loop in `compute_equity_and_interest`: equity
accumulated so far, cumulative interest paid, and the remaining loan
balance. -/
structure AmortState where
  equity : ℚ
  interest_paid : ℚ
  remaining_loan : ℚ
  deriving Repr, DecidableEq

/-- Initial state of the amortization loop: configured initial equity, zero
interest paid, full loan amount outstanding. -/
def amortInit (initial_equity loan_amount : ℚ) : AmortState :=
  ⟨initial_equity, 0, loan_amount⟩

/-- One iteration of the amortization loop of `compute_equity_and_interest`:
`period_interest = remaining_loan * period_interest_factor`;
`remaining_loan += period_interest - principal`;
`interest_paid += period_interest`; `equity += principal - period_interest`. -/
def amortStep (period_interest_factor principal : ℚ) (s : AmortState) : AmortState :=
  { equity := s.equity + principal - s.remaining_loan * period_interest_factor
    interest_paid := s.interest_paid + s.remaining_loan * period_interest_factor
    remaining_loan := s.remaining_loan + s.remaining_loan * period_interest_factor - principal }

/-- Embedding of `compute_equity_and_interest`: iterates the amortization loop
for `years_to_maturity * n_payment_per_year` periods, recording equity and
cumulative interest after every period (index 0 holds the initial values), and
post-processes equity by estate-growth compounding when
`estate_growth_rate > 0`. -/
def compute_equity_and_interest (loan_rate loan_amount : ℚ)
    (years_to_maturity n_payment_per_year : ℕ)
    (initial_equity estate_growth_rate : ℚ) : List ℚ × List ℚ :=
  let principal := compute_mortg_principal loan_rate loan_amount years_to_maturity n_payment_per_year
  let period_interest_factor := loan_rate / (n_payment_per_year : ℚ)
  let period_estate_growth_factor := 1 + estate_growth_rate / (n_payment_per_year : ℚ)
  let states := (List.range (years_to_maturity * n_payment_per_year + 1)).map
    (fun k => (amortStep period_interest_factor principal)^[k] (amortInit initial_equity loan_amount))
  let equity_over_time := states.map AmortState.equity
  let interest_paid_over_time := states.map AmortState.interest_paid
  let equity_final :=
    if 0 < estate_growth_rate then
      equity_over_time.enum.map (fun p => p.2 * period_estate_growth_factor ^ (p.1 + 1))
    else equity_over_time
  (equity_final, interest_paid_over_time)

/-- Embedding of `inflation_adjust` (the generator materialized): scales the
`i`-th monthly cost by `(1 + yearly_infl_rate / 12) ^ i`. -/
def inflation_adjust (month_costs_gen : List ℚ) (yearly_infl_rate : ℚ) : List ℚ :=
  month_costs_gen.enum.map (fun p => p.2 * (1 + yearly_infl_rate / 12) ^ p.1)

/-- Scenario Configuration: the flat record of named scalar parameters of
`house_investment`. -/
structure HouseConfig where
  mortg_rate : ℚ
  down_payment_perc : ℚ
  house_cost : ℚ
  tax : ℚ
  insurance : ℚ
  repair : ℚ
  estate_rate : ℚ
  mortgage_n_years : ℕ
  n_years_after_pay_off : ℕ
  monthly_rental_income : ℚ
  percentage_rented : ℚ
  inflation_rate : ℚ
  income_tax : ℚ
  management_fees_rate : ℚ
  deriving Repr, DecidableEq

/-- Local `n_months_repay = mortgage_n_years * 12` of `house_investment`. -/
def n_months_repay (c : HouseConfig) : ℕ := c.mortgage_n_years * 12

/-- Local `n_total_months = n_months_repay + n_years_after_pay_off * 12` of
`house_investment`. -/
def n_total_months (c : HouseConfig) : ℕ :=
  n_months_repay c + c.n_years_after_pay_off * 12

/-- Local `loan_amount = house_cost * (1 - down_payment_perc)` of
`house_investment`. -/
def loan_amount (c : HouseConfig) : ℚ := c.house_cost * (1 - c.down_payment_perc)

/-- Local `monthly_mort_payment` of `house_investment`, derived via
`compute_mortg_principal` with 12 payments per year. -/
def monthly_mort_payment (c : HouseConfig) : ℚ :=
  compute_mortg_principal c.mortg_rate (loan_amount c) c.mortgage_n_years 12

/-- Local `extra_cost_per_month` of `house_investment`:
`[(tax + insurance + repair) / 12] * n_total_months`. -/
def extra_cost_per_month (c : HouseConfig) : List ℚ :=
  List.replicate (n_total_months c) ((c.tax + c.insurance + c.repair) / 12)

/-- Local `infl_adj_extra_cost_per_month` of `house_investment`: the extra
costs inflation-adjusted, then reduced by the deductible fraction
`percentage_rented * income_tax`. -/
def infl_adj_extra_cost_per_month (c : HouseConfig) : List ℚ :=
  (inflation_adjust (extra_cost_per_month c) c.inflation_rate).map
    (fun cost => cost * (1 - c.percentage_rented * c.income_tax))

/-- Local `total_cost_per_month` of `house_investment`: adjusted extra cost
plus the mortgage payment gated by `i <= n_months_repay` (the Python boolean
is multiplied in as `1` or `0`). -/
def total_cost_per_month (c : HouseConfig) : List ℚ :=
  (infl_adj_extra_cost_per_month c).enum.map
    (fun p => p.2 + monthly_mort_payment c * (if p.1 ≤ n_months_repay c then 1 else 0))

/-- Local `rental_income` of `house_investment`: rent net of management fees,
vacancy and income tax, grown by monthly estate-rate compounding. -/
def rental_income (c : HouseConfig) : List ℚ :=
  (List.range (n_total_months c)).map
    (fun i => c.monthly_rental_income * (1 - c.management_fees_rate) * c.percentage_rented
      * (1 - c.income_tax) * (1 + c.estate_rate / 12) ^ (i + 1))

/-- Local `monthly_income` of `house_investment`: rental income minus total
monthly cost, per period. -/
def monthly_income (c : HouseConfig) : List ℚ :=
  ((rental_income c).zip (total_cost_per_month c)).map (fun p => p.1 - p.2)

/-- Local `house_value` of `house_investment`:
`house_cost * (1 + estate_rate / 12) ^ (i + 1)`. -/
def house_value (c : HouseConfig) : List ℚ :=
  (List.range (n_total_months c)).map
    (fun i => c.house_cost * (1 + c.estate_rate / 12) ^ (i + 1))

/-- Local `unrepaid_loan_remaining` of `house_investment`: the loan balance
had nothing been repaid. -/
def unrepaid_loan_remaining (c : HouseConfig) : List ℚ :=
  (List.range (n_months_repay c)).map
    (fun i => loan_amount c * (1 + c.mortg_rate / 12) ^ (i + 1))

/-- Local `repaid_total` of `house_investment`: side-account accumulation of
the payments at the loan rate, via the accumulator with
`final_only=False`. -/
def repaid_total (c : HouseConfig) : List ℚ :=
  vos_list (List.replicate (n_months_repay c) (monthly_mort_payment c))
    (List.replicate (n_months_repay c) (c.mortg_rate / 12))

/-- Local `loan_remaining` of `house_investment`: untouched-loan projection
minus the side account, padded with zeros after payoff. -/
def loan_remaining (c : HouseConfig) : List ℚ :=
  ((unrepaid_loan_remaining c).zip (repaid_total c)).map (fun p => p.1 - p.2)
    ++ List.replicate (n_total_months c - n_months_repay c) 0

/-- Local `equity` of `house_investment`: house value minus remaining
loan. -/
def equity (c : HouseConfig) : List ℚ :=
  ((house_value c).zip (loan_remaining c)).map (fun p => p.1 - p.2)

/-- Embedding of `house_investment`: returns the equity series and the net
monthly income series. -/
def house_investment (c : HouseConfig) : List ℚ × List ℚ :=
  (equity c, monthly_income c)

/-- Local `positive_monthly_income` of `compare_house_invest_vs_stock`:
`inc * int(inc > 0)` per month. -/
def positive_monthly_income (monthly_income : List ℚ) : List ℚ :=
  monthly_income.map (fun inc => inc * (if 0 < inc then 1 else 0))

/-- Local `negative_monthly_income` of `compare_house_invest_vs_stock`:
`-inc * int(inc <= 0)` per month. -/
def negative_monthly_income (monthly_income : List ℚ) : List ℚ :=
  monthly_income.map (fun inc => -inc * (if inc ≤ 0 then 1 else 0))

/-- Embedding of `compare_house_invest_vs_stock`: equity plus reinvested
non-negative cash flows versus the down payment compounded at the stock rate
plus the reinvested magnitudes of non-positive cash flows. -/
def compare_house_invest_vs_stock (equity monthly_income : List ℚ)
    (stock_market_rate down_payment_perc house_cost : ℚ) : List ℚ × List ℚ :=
  let stock_market_month_rate := stock_market_rate / 12
  let house_invest := (equity.zip (vos_list (positive_monthly_income monthly_income)
      (List.replicate monthly_income.length stock_market_month_rate))).map (fun p => p.1 + p.2)
  let down_payment_invest := (List.range monthly_income.length).map
    (fun i => down_payment_perc * house_cost * (1 + stock_market_month_rate) ^ (i + 1))
  let invested_negative_monthly_income := vos_list (negative_monthly_income monthly_income)
    (List.replicate (negative_monthly_income monthly_income).length stock_market_month_rate)
  let total_stock_market_invest :=
    (down_payment_invest.zip invested_negative_monthly_income).map (fun p => p.1 + p.2)
  (house_invest, total_stock_market_invest)

/-! ### Helper lemmas about the accumulator -/

/-- Length of the accumulation trajectory equals the number of zipped
steps. -/
theorem accumFrom_length (l : List (ℚ × ℚ)) (t : ℚ) :
    (accumFrom t l).length = l.length := by
  induction l generalizing t with
  | nil => rfl
  | cons hd tl ih =>
    obtain ⟨i, r⟩ := hd
    simp [accumFrom, ih]

/-- The last trajectory entry of a nonempty accumulation run is the final
total. -/
theorem accumFrom_getLast? (l : List (ℚ × ℚ)) (t : ℚ) (hl : l ≠ []) :
    (accumFrom t l).getLast? = some (totalFrom t l) := by
  induction l generalizing t with
  | nil => exact absurd rfl hl
  | cons hd tl ih =>
    obtain ⟨i, r⟩ := hd
    cases tl with
    | nil => simp [accumFrom, totalFrom]
    | cons hd' tl' =>
      have h' : hd' :: tl' ≠ [] := by simp
      rw [accumFrom, totalFrom, List.getLast?_cons, ih (t * (1 + r) + i) h']
      rfl

/-- Each trajectory entry is the total of the corresponding prefix of the
steps. -/
theorem accumFrom_get (l : List (ℚ × ℚ)) (t : ℚ) (i : ℕ)
    (h : i < (accumFrom t l).length) :
    (accumFrom t l).get ⟨i, h⟩ = totalFrom t (l.take (i + 1)) := by
  induction l generalizing t i with
  | nil => simp [accumFrom] at h
  | cons hd tl ih =>
    obtain ⟨a, r⟩ := hd
    cases i with
    | zero => simp [accumFrom, totalFrom]
    | succ j =>
      have h' : j < (accumFrom (t * (1 + r) + a) tl).length := by
        simpa [accumFrom] using h
      simpa [accumFrom, totalFrom] using ih (t * (1 + r) + a) j h'

/-- Closed form for the accumulator total over constant contribution and
rate: geometric growth of the seed plus a geometric sum of the
contributions. -/
theorem totalFrom_replicate (c r t : ℚ) (n : ℕ) :
    totalFrom t (List.replicate n (c, r)) =
      t * (1 + r) ^ n + c * ∑ i ∈ Finset.range n, (1 + r) ^ i := by
  induction n generalizing t with
  | zero => simp [totalFrom]
  | succ m ih =>
    rw [List.replicate_succ, totalFrom, ih]
    rw [geom_sum_succ']
    ring

/-- The accumulator total is linear in the seed: running from `t` equals
running from `0` plus `t` compounded through all the rates. -/
theorem vos_final_replicate (c r : ℚ) (n : ℕ) :
    vos_final (List.replicate n c) (List.replicate n r) =
      c * ∑ i ∈ Finset.range n, (1 + r) ^ i := by
  rw [vos_final, List.zip_replicate', totalFrom_replicate]
  ring

/-- Taking a prefix of zipped lists is zipping the prefixes. -/
theorem zip_take (l₁ l₂ : List ℚ) (n : ℕ) :
    (l₁.zip l₂).take n = (l₁.take n).zip (l₂.take n) := by
  simp [List.zip_eq_zipWith, List.take_zipWith]

/-! ### Helper lemmas about the amortization loop -/

/-- Closed form for the remaining balance after `k` iterations of the
amortization loop: the seed balance compounds geometrically while each payment
is credited with the growth it avoids. -/
theorem amortStep_iterate_remaining (r P : ℚ) (s : AmortState) (k : ℕ) :
    ((amortStep r P)^[k] s).remaining_loan =
      s.remaining_loan * (1 + r) ^ k - P * ∑ i ∈ Finset.range k, (1 + r) ^ i := by
  induction k with
  | zero => simp
  | succ m ih =>
    rw [Function.iterate_succ_apply']
    simp only [amortStep]
    rw [ih, geom_sum_succ]
    ring

/-- The sum of equity and remaining balance is preserved by each iteration of
the amortization loop. -/
theorem amortStep_iterate_sum (r P : ℚ) (s : AmortState) (k : ℕ) :
    ((amortStep r P)^[k] s).equity + ((amortStep r P)^[k] s).remaining_loan =
      s.equity + s.remaining_loan := by
  induction k with
  | zero => simp
  | succ m ih =>
    rw [Function.iterate_succ_apply']
    simp only [amortStep]
    rw [← ih]
    ring

/-- The payment returned by `compute_mortg_principal`, credited over all
periods with the growth it avoids, exactly matches the compounded loan. -/
theorem principal_mul_geom_sum (loan_rate loan_amount : ℚ) (y p : ℕ)
    (hy : 0 < y) (hp : 0 < p) (hf : 0 < 1 + loan_rate / (p : ℚ)) :
    compute_mortg_principal loan_rate loan_amount y p *
      ∑ i ∈ Finset.range (y * p), (1 + loan_rate / (p : ℚ)) ^ i =
      loan_amount * (1 + loan_rate / (p : ℚ)) ^ (y * p) := by
  have hn : 0 < y * p := Nat.mul_pos hy hp
  by_cases hr : loan_rate = 0
  · subst hr
    rw [compute_mortg_principal, if_pos rfl]
    simp only [zero_div, add_zero, one_pow, Finset.sum_const, Finset.card_range,
      nsmul_eq_mul, mul_one]
    exact div_mul_cancel₀ loan_amount (by exact_mod_cast hn.ne')
  · have hS : 0 < ∑ i ∈ Finset.range (y * p), (1 + loan_rate / (p : ℚ)) ^ i :=
      Finset.sum_pos (fun i _ => pow_pos hf i) (Finset.nonempty_range_iff.mpr hn.ne')
    rw [compute_mortg_principal, if_neg hr, vos_final_replicate, one_mul]
    exact div_mul_cancel₀ _ hS.ne'

/-! ### Claim theorems -/

/-- C1: with the payment computed by `compute_mortg_principal`, the remaining
loan balance maintained by the amortization loop of
`compute_equity_and_interest` (seeded with `loan_amount`, each period adding
the period's interest and subtracting the payment) is exactly zero after
`years_to_maturity * n_payment_per_year` periods, for positive maturity and
payment frequency and a non-degenerate periodic growth factor. -/
theorem claim1_balance_zero_at_maturity (loan_rate loan_amount initial_equity : ℚ)
    (y p : ℕ) (hy : 0 < y) (hp : 0 < p) (hf : 0 < 1 + loan_rate / (p : ℚ)) :
    ((amortStep (loan_rate / (p : ℚ)) (compute_mortg_principal loan_rate loan_amount y p))^[y * p]
        (amortInit initial_equity loan_amount)).remaining_loan = 0 := by
  rw [amortStep_iterate_remaining]
  simp only [amortInit]
  rw [sub_eq_zero]
  exact (principal_mul_geom_sum loan_rate loan_amount y p hy hp hf).symm

/-- Witness for C1 at `loan_rate = 1`, `loan_amount = 100`, one yearly payment
over one year. -/
theorem claim1_witness :
    0 < 1 ∧ 0 < 1 ∧ (0 : ℚ) < 1 + 1 / ((1 : ℕ) : ℚ) ∧
      ((HouseApp.amortStep (1 / ((1 : ℕ) : ℚ)) (HouseApp.compute_mortg_principal 1 100 1 1))^[1 * 1]
        (HouseApp.amortInit 0 100)).remaining_loan = 0 :=
  ⟨Nat.one_pos, Nat.one_pos, by norm_num,
    claim1_balance_zero_at_maturity 1 100 0 1 1 Nat.one_pos Nat.one_pos (by norm_num)⟩

/-- C2: the closed form `total_of_regular_investment` agrees exactly, over the
rationals, with the final end-of-period total of `values_of_series_of_invest`
on `n` copies of the contribution and the rate. -/
theorem claim2_closed_form_eq_accumulator (c r : ℚ) (n : ℕ) :
    total_of_regular_investment c r n =
      vos_final (List.replicate n c) (List.replicate n r) := by
  rw [vos_final_replicate, total_of_regular_investment]
  by_cases hr : r = 0
  · subst hr
    simp
  · rw [if_neg hr]
    have h1 : (1 : ℚ) + r ≠ 1 := fun h => hr (by linarith)
    rw [geom_sum_eq h1]
    have e1 : (1 : ℚ) - (1 + r) = -r := by ring
    have e2 : (1 : ℚ) + r - 1 = r := by ring
    rw [e1, e2, div_neg, ← mul_div_assoc, eq_div_iff hr, add_mul, neg_mul,
      div_mul_cancel₀ _ hr]
    ring

/-- C3: for equal-length nonempty inputs, the `final_only=True` scalar equals
the last element of the `final_only=False` trajectory, in both end-of-period
and beginning-of-period modes. -/
theorem claim3_final_eq_last (invest rate : List ℚ)
    (hlen : invest.length = rate.length) (hne : invest ≠ []) (bm : Bool) :
    ∃ (x : ℚ) (l : List ℚ),
      values_of_series_of_invest invest rate false bm = Except.ok (Sum.inr l) ∧
      values_of_series_of_invest invest rate true bm = Except.ok (Sum.inl x) ∧
      l.getLast? = some x := by
  cases bm with
  | false =>
    refine ⟨totalFrom 0 (invest.zip rate), accumFrom 0 (invest.zip rate), ?_, ?_, ?_⟩
    · simp [values_of_series_of_invest]
    · simp [values_of_series_of_invest]
    · apply accumFrom_getLast?
      cases invest with
      | nil => exact absurd rfl hne
      | cons i is =>
        cases rate with
        | nil => simp at hlen
        | cons r rs => simp [List.zip_cons_cons]
  | true =>
    cases invest with
    | nil => exact absurd rfl hne
    | cons i is =>
      cases rate with
      | nil => simp at hlen
      | cons r rs =>
        refine ⟨totalFrom (i * (1 + r)) (is.zip rs),
          (i * (1 + r)) :: accumFrom (i * (1 + r)) (is.zip rs), ?_, ?_, ?_⟩
        · simp [values_of_series_of_invest]
        · simp [values_of_series_of_invest]
        · rcases h : is.zip rs with _ | ⟨hd, tl⟩
          · simp [accumFrom, totalFrom]
          · rw [List.getLast?_cons, accumFrom_getLast? _ _ (by simp [h])]
            rfl

/-- Witness for C3 at `invest = [1, 1]`, `rate = [0, 0]`, beginning-of-period
mode. -/
theorem claim3_witness :
    ([(1 : ℚ), 1].length = [(0 : ℚ), 0].length) ∧ ([(1 : ℚ), 1] ≠ []) ∧
      ∃ (x : ℚ) (l : List ℚ),
        values_of_series_of_invest [1, 1] [0, 0] false true = Except.ok (Sum.inr l) ∧
        values_of_series_of_invest [1, 1] [0, 0] true true = Except.ok (Sum.inl x) ∧
        l.getLast? = some x :=
  ⟨rfl, by simp, claim3_final_eq_last [1, 1] [0, 0] rfl (by simp) true⟩

/-- C4: `compute_mortg_principal` returns `loan_amount / (years * payments)`
at a zero rate, and otherwise the compounded total loan divided by the unit
growth obtained from the end-of-period accumulator applied to
`years * payments` ones at the periodic rate. -/
theorem claim4_mortg_principal_formula (loan_rate loan_amount : ℚ) (y p : ℕ) :
    compute_mortg_principal loan_rate loan_amount y p =
      if loan_rate = 0 then loan_amount / ((y : ℚ) * (p : ℚ))
      else loan_amount * (1 + loan_rate / (p : ℚ)) ^ (y * p) /
        vos_final (List.replicate (y * p) 1)
          (List.replicate (y * p) (loan_rate / (p : ℚ))) := by
  by_cases hr : loan_rate = 0
  · rw [compute_mortg_principal, if_pos hr, if_pos hr, Nat.cast_mul]
  · rw [compute_mortg_principal, if_neg hr, if_neg hr]

/-- C10: with a zero estate growth rate, equity plus remaining balance is
invariant across the amortization iteration of `compute_equity_and_interest`:
at every period index up to maturity it equals
`initial_equity + loan_amount`. -/
theorem claim10_equity_loan_invariant (loan_rate loan_amount initial_equity : ℚ)
    (y p k : ℕ) (hk : k ≤ y * p) :
    (compute_equity_and_interest loan_rate loan_amount y p initial_equity 0).1.getD k 0 +
      ((amortStep (loan_rate / (p : ℚ)) (compute_mortg_principal loan_rate loan_amount y p))^[k]
        (amortInit initial_equity loan_amount)).remaining_loan =
      initial_equity + loan_amount := by
  have hk' : k < y * p + 1 := Nat.lt_succ_of_le hk
  simp only [compute_equity_and_interest, lt_self_iff_false, if_false, List.map_map,
    List.getD_eq_getElem?_getD, List.getElem?_map, List.getElem?_range, hk', if_pos,
    Option.map_some', Option.getD_some, Function.comp]
  exact amortStep_iterate_sum (loan_rate / (p : ℚ))
    (compute_mortg_principal loan_rate loan_amount y p) (amortInit initial_equity loan_amount) k

/-- Witness for C10 at `loan_rate = 1`, `loan_amount = 100`,
`initial_equity = 7`, one yearly payment over one year, period index 1. -/
theorem claim10_witness :
    1 ≤ 1 * 1 ∧
      (HouseApp.compute_equity_and_interest 1 100 1 1 7 0).1.getD 1 0 +
        ((HouseApp.amortStep (1 / ((1 : ℕ) : ℚ)) (HouseApp.compute_mortg_principal 1 100 1 1))^[1]
          (HouseApp.amortInit 7 100)).remaining_loan = 7 + 100 :=
  ⟨le_refl 1, claim10_equity_loan_invariant 1 100 7 1 1 1 (le_refl 1)⟩

/-! ### Helper lemmas about the house-investment series -/

/-- Length of the side-account accumulation: one entry per repayment
month. -/
theorem repaid_total_length (c : HouseConfig) :
    (repaid_total c).length = n_months_repay c := by
  simp [repaid_total, vos_list, accumFrom_length]

/-- Length of the adjusted extra-cost series. -/
theorem infl_adj_extra_cost_length (c : HouseConfig) :
    (infl_adj_extra_cost_per_month c).length = n_total_months c := by
  simp [infl_adj_extra_cost_per_month, inflation_adjust, extra_cost_per_month]

/-- Length of the total-cost series. -/
theorem total_cost_length (c : HouseConfig) :
    (total_cost_per_month c).length = n_total_months c := by
  simp [total_cost_per_month, infl_adj_extra_cost_length]

/-- Length of the monthly-income series. -/
theorem monthly_income_length (c : HouseConfig) :
    (monthly_income c).length = n_total_months c := by
  simp [monthly_income, rental_income, total_cost_length]

/-- Length of the remaining-loan series, padding included. -/
theorem loan_remaining_length (c : HouseConfig) :
    (loan_remaining c).length = n_total_months c := by
  simp only [loan_remaining, List.length_append, List.length_map, List.length_zip,
    List.length_replicate, unrepaid_loan_remaining, List.length_range, repaid_total_length,
    min_self, n_total_months]
  omega

/-- Length of the equity series. -/
theorem equity_length (c : HouseConfig) :
    (equity c).length = n_total_months c := by
  simp [equity, house_value, loan_remaining_length]

/-- After the repayment horizon the padded remaining-loan entry is zero. -/
theorem loan_remaining_after_payoff (c : HouseConfig) (i : ℕ)
    (hlo : n_months_repay c ≤ i) (hhi : i < n_total_months c) :
    (loan_remaining c).getD i 0 = 0 := by
  have hfst : (((unrepaid_loan_remaining c).zip (repaid_total c)).map
      (fun p : ℚ × ℚ => p.1 - p.2)).length = n_months_repay c := by
    simp [unrepaid_loan_remaining, repaid_total_length]
  rw [loan_remaining, List.getD_eq_getElem?_getD,
    List.getElem?_append_right (by rw [hfst]; exact hlo), hfst]
  have hlt : i - n_months_repay c < n_total_months c - n_months_repay c := by omega
  simp [List.getElem?_replicate, hlt]

/-! ### Claims C5 and C6 -/

/-- C5: both series returned by `house_investment` have length
`n_total_months`, and at every month from the repayment horizon onward the
remaining loan is exactly zero, so equity equals the compounded house
value. -/
theorem claim5_house_investment_lengths_and_payoff (c : HouseConfig) :
    ((house_investment c).1.length = n_total_months c ∧
      (house_investment c).2.length = n_total_months c) ∧
    ∀ i, n_months_repay c ≤ i → i < n_total_months c →
      (loan_remaining c).getD i 0 = 0 ∧
      (house_investment c).1.getD i 0 =
        c.house_cost * (1 + c.estate_rate / 12) ^ (i + 1) := by
  refine ⟨⟨equity_length c, monthly_income_length c⟩, fun i hlo hhi => ?_⟩
  have hloan := loan_remaining_after_payoff c i hlo hhi
  refine ⟨hloan, ?_⟩
  have hi_eq : i < (equity c).length := by rw [equity_length]; exact hhi
  have hi_hv : i < (house_value c).length := by simp [house_value]; exact hhi
  have hi_lr : i < (loan_remaining c).length := by rw [loan_remaining_length]; exact hhi
  rw [List.getD_eq_getElem?_getD] at hloan
  rw [List.getElem?_eq_getElem hi_lr, Option.getD_some] at hloan
  show (equity c).getD i 0 = _
  rw [List.getD_eq_getElem?_getD, List.getElem?_eq_getElem hi_eq, Option.getD_some]
  simp only [equity, List.getElem_map, List.getElem_zip]
  rw [hloan]
  simp [house_value]

/-- Scenario used to instantiate the house-investment claims: zero-rate loan
already paid off (zero mortgage years) followed by one display year. -/
def witnessConfig : HouseConfig :=
  { mortg_rate := 0
    down_payment_perc := 1 / 5
    house_cost := 100000
    tax := 1200
    insurance := 1200
    repair := 2400
    estate_rate := 0
    mortgage_n_years := 0
    n_years_after_pay_off := 1
    monthly_rental_income := 1000
    percentage_rented := 1
    inflation_rate := 0
    income_tax := 0
    management_fees_rate := 0 }

/-- Witness for C5 at the concrete scenario and month index 5. -/
theorem claim5_witness :
    n_months_repay witnessConfig ≤ 5 ∧ 5 < n_total_months witnessConfig ∧
      ((loan_remaining witnessConfig).getD 5 0 = 0 ∧
        (house_investment witnessConfig).1.getD 5 0 =
          witnessConfig.house_cost * (1 + witnessConfig.estate_rate / 12) ^ (5 + 1)) :=
  ⟨by decide, by decide,
    (claim5_house_investment_lengths_and_payoff witnessConfig).2 5 (by decide) (by decide)⟩

/-- C6: each total monthly cost equals the inflated, deduction-reduced extra
cost plus the mortgage payment exactly for `i ≤ n_months_repay` (and the extra
cost alone otherwise), and with at least one year after payoff the payment is
charged in exactly `n_months_repay + 1` months. -/
theorem claim6_total_cost_formula (c : HouseConfig) :
    (∀ i, i < n_total_months c →
      (total_cost_per_month c).getD i 0 =
        (c.tax + c.insurance + c.repair) / 12 * (1 + c.inflation_rate / 12) ^ i *
            (1 - c.percentage_rented * c.income_tax) +
          (if i ≤ n_months_repay c then monthly_mort_payment c else 0)) ∧
    (1 ≤ c.n_years_after_pay_off →
      ((Finset.range (n_total_months c)).filter (fun i => i ≤ n_months_repay c)).card =
        n_months_repay c + 1) := by
  constructor
  · intro i hi
    have hlen : i < (total_cost_per_month c).length := by rw [total_cost_length]; exact hi
    rw [List.getD_eq_getElem?_getD, List.getElem?_eq_getElem hlen, Option.getD_some]
    simp [total_cost_per_month, infl_adj_extra_cost_per_month, inflation_adjust,
      extra_cost_per_month, List.getElem_enum, mul_ite, mul_one, mul_zero]
  · intro hafter
    have hle : n_months_repay c + 1 ≤ n_total_months c := by
      simp only [n_total_months]
      omega
    have : (Finset.range (n_total_months c)).filter (fun i => i ≤ n_months_repay c) =
        Finset.range (n_months_repay c + 1) := by
      ext x
      simp only [Finset.mem_filter, Finset.mem_range, Nat.lt_succ_iff]
      omega
    rw [this, Finset.card_range]

/-- Witness for C6 at the concrete scenario, month index 3, with one year
after payoff. -/
theorem claim6_witness :
    3 < n_total_months witnessConfig ∧ 1 ≤ witnessConfig.n_years_after_pay_off ∧
      ((total_cost_per_month witnessConfig).getD 3 0 =
        (witnessConfig.tax + witnessConfig.insurance + witnessConfig.repair) / 12 *
            (1 + witnessConfig.inflation_rate / 12) ^ 3 *
            (1 - witnessConfig.percentage_rented * witnessConfig.income_tax) +
          (if 3 ≤ n_months_repay witnessConfig then monthly_mort_payment witnessConfig else 0)) ∧
      ((Finset.range (n_total_months witnessConfig)).filter
          (fun i => i ≤ n_months_repay witnessConfig)).card =
        n_months_repay witnessConfig + 1 :=
  ⟨by decide, by decide,
    (claim6_total_cost_formula witnessConfig).1 3 (by decide),
    (claim6_total_cost_formula witnessConfig).2 (by decide)⟩

/-! ### Helper lemmas for the comparator -/

/-- The gated positive part used by the comparator is the non-negative part
of the cash flow. -/
theorem mul_indicator_pos (x : ℚ) : x * (if 0 < x then 1 else 0) = max x 0 := by
  rcases le_or_lt x 0 with h | h
  · simp [not_lt.mpr h, max_eq_right h]
  · simp [h, max_eq_left h.le]

/-- The gated negated part used by the comparator is the magnitude of the
non-positive part of the cash flow. -/
theorem mul_indicator_neg (x : ℚ) : -x * (if x ≤ 0 then 1 else 0) = max (-x) 0 := by
  rcases le_or_lt x 0 with h | h
  · simp [h, max_eq_left (by linarith : (0 : ℚ) ≤ -x)]
  · simp [not_le.mpr h, max_eq_right (by linarith : -x ≤ (0 : ℚ))]

/-- The comparator's positive-income series as non-negative parts. -/
theorem positive_monthly_income_eq (mi : List ℚ) :
    positive_monthly_income mi = mi.map (fun x => max x 0) := by
  simp only [positive_monthly_income, mul_indicator_pos]

/-- The comparator's negative-income series as magnitudes of non-positive
parts. -/
theorem negative_monthly_income_eq (mi : List ℚ) :
    negative_monthly_income mi = mi.map (fun x => max (-x) 0) := by
  simp only [negative_monthly_income, mul_indicator_neg]

/-- Reading a list inside its bounds with `getD` is plain indexing. -/
theorem getElem_eq_getD (l : List ℚ) (i : ℕ) (h : i < l.length) :
    l[i] = l.getD i 0 := by
  rw [List.getD_eq_getElem?_getD, List.getElem?_eq_getElem h]
  rfl

/-- Indexing an element-wise sum of two zipped lists. -/
theorem getD_zip_map_add (l₁ l₂ : List ℚ) (i : ℕ) (h1 : i < l₁.length)
    (h2 : i < l₂.length) :
    ((l₁.zip l₂).map (fun p : ℚ × ℚ => p.1 + p.2)).getD i 0 =
      l₁.getD i 0 + l₂.getD i 0 := by
  have hz : i < ((l₁.zip l₂).map (fun p : ℚ × ℚ => p.1 + p.2)).length := by
    simp only [List.length_map, List.length_zip]
    omega
  rw [← getElem_eq_getD _ _ hz]
  simp only [List.getElem_map, List.getElem_zip]
  rw [getElem_eq_getD _ _ h1, getElem_eq_getD _ _ h2]

/-- Indexing a map over a range of indices. -/
theorem getD_map_range (n : ℕ) (f : ℕ → ℚ) (i : ℕ) (h : i < n) :
    ((List.range n).map f).getD i 0 = f i := by
  have hm : i < ((List.range n).map f).length := by
    simp only [List.length_map, List.length_range]
    exact h
  rw [← getElem_eq_getD _ _ hm]
  simp [List.getElem_map, List.getElem_range]

/-- Entry `i` of the accumulator trajectory over a list with a constant rate
is the accumulator total of the first `i + 1` contributions. -/
theorem vos_list_replicate_getD (l : List ℚ) (mr : ℚ) (i : ℕ) (hi : i < l.length) :
    (vos_list l (List.replicate l.length mr)).getD i 0 =
      totalFrom 0 ((l.take (i + 1)).zip (List.replicate (i + 1) mr)) := by
  have hlen : (vos_list l (List.replicate l.length mr)).length = l.length := by
    simp [vos_list, accumFrom_length]
  rw [← getElem_eq_getD _ _ (by rw [hlen]; exact hi)]
  have hget := accumFrom_get (l.zip (List.replicate l.length mr)) 0 i
    (by rw [accumFrom_length]; simp only [List.length_zip, List.length_replicate, min_self]
        exact hi)
  rw [List.get_eq_getElem] at hget
  simp only [vos_list]
  rw [hget, zip_take, List.take_replicate, Nat.min_eq_left (by omega)]

/-! ### Claim C7 -/

/-- C7: at every index, the comparator's house series is equity plus the
end-of-period accumulation of the non-negative cash flows so far, and its
stock series is the compounded down payment plus the end-of-period
accumulation of the magnitudes of the non-positive cash flows so far. -/
theorem claim7_compare_formula (equity monthly_income : List ℚ)
    (stock_market_rate down_payment_perc house_cost : ℚ)
    (hlen : equity.length = monthly_income.length) (i : ℕ)
    (hi : i < monthly_income.length) :
    (compare_house_invest_vs_stock equity monthly_income stock_market_rate
        down_payment_perc house_cost).1.getD i 0 =
      equity.getD i 0 +
        totalFrom 0 (((monthly_income.take (i + 1)).map (fun x => max x 0)).zip
          (List.replicate (i + 1) (stock_market_rate / 12))) ∧
    (compare_house_invest_vs_stock equity monthly_income stock_market_rate
        down_payment_perc house_cost).2.getD i 0 =
      down_payment_perc * house_cost * (1 + stock_market_rate / 12) ^ (i + 1) +
        totalFrom 0 (((monthly_income.take (i + 1)).map (fun x => max (-x) 0)).zip
          (List.replicate (i + 1) (stock_market_rate / 12))) := by
  have hpos := vos_list_replicate_getD (positive_monthly_income monthly_income)
    (stock_market_rate / 12) i (by simpa [positive_monthly_income] using hi)
  have hneg := vos_list_replicate_getD (negative_monthly_income monthly_income)
    (stock_market_rate / 12) i (by simpa [negative_monthly_income] using hi)
  rw [positive_monthly_income_eq, ← List.map_take, List.length_map] at hpos
  rw [negative_monthly_income_eq, ← List.map_take, List.length_map] at hneg
  have hplen : (positive_monthly_income monthly_income).length = monthly_income.length := by
    simp [positive_monthly_income]
  have hnlen : (negative_monthly_income monthly_income).length = monthly_income.length := by
    simp [negative_monthly_income]
  have hvpos : i < (vos_list (positive_monthly_income monthly_income)
      (List.replicate monthly_income.length (stock_market_rate / 12))).length := by
    simp only [vos_list, accumFrom_length, List.length_zip, List.length_replicate, hplen,
      min_self]
    exact hi
  have hvneg : i < (vos_list (negative_monthly_income monthly_income)
      (List.replicate (negative_monthly_income monthly_income).length
        (stock_market_rate / 12))).length := by
    simp only [vos_list, accumFrom_length, List.length_zip, List.length_replicate, hnlen,
      min_self]
    exact hi
  constructor
  · show ((equity.zip (vos_list (positive_monthly_income monthly_income)
        (List.replicate monthly_income.length (stock_market_rate / 12)))).map
          (fun p => p.1 + p.2)).getD i 0 = _
    rw [getD_zip_map_add _ _ i (by rw [hlen]; exact hi) hvpos]
    rw [show vos_list (positive_monthly_income monthly_income)
        (List.replicate monthly_income.length (stock_market_rate / 12)) =
      vos_list (List.map (fun x => max x 0) monthly_income)
        (List.replicate monthly_income.length (stock_market_rate / 12)) from by
        rw [positive_monthly_income_eq]]
    rw [hpos]
  · show ((((List.range monthly_income.length).map
        (fun j => down_payment_perc * house_cost * (1 + stock_market_rate / 12) ^ (j + 1))).zip
          (vos_list (negative_monthly_income monthly_income)
            (List.replicate (negative_monthly_income monthly_income).length
              (stock_market_rate / 12)))).map (fun p => p.1 + p.2)).getD i 0 = _
    rw [getD_zip_map_add _ _ i (by simp only [List.length_map, List.length_range]; exact hi)
      hvneg]
    rw [getD_map_range _ _ i hi]
    rw [show vos_list (negative_monthly_income monthly_income)
        (List.replicate (negative_monthly_income monthly_income).length
          (stock_market_rate / 12)) =
      vos_list (List.map (fun x => max (-x) 0) monthly_income)
        (List.replicate monthly_income.length (stock_market_rate / 12)) from by
        rw [negative_monthly_income_eq, List.length_map]]
    rw [hneg]

/-- Witness for C7 at `equity = [5]`, `monthly_income = [-3]`, zero stock
rate, down payment fraction `1/10`, house cost `100`, index 0. -/
theorem claim7_witness :
    ([(5 : ℚ)].length = [(-3 : ℚ)].length) ∧ 0 < [(-3 : ℚ)].length ∧
      ((compare_house_invest_vs_stock [5] [-3] 0 (1 / 10) 100).1.getD 0 0 =
          [(5 : ℚ)].getD 0 0 +
            totalFrom 0 ((([(-3 : ℚ)].take (0 + 1)).map (fun x => max x 0)).zip
              (List.replicate (0 + 1) ((0 : ℚ) / 12))) ∧
        (compare_house_invest_vs_stock [5] [-3] 0 (1 / 10) 100).2.getD 0 0 =
          1 / 10 * 100 * (1 + (0 : ℚ) / 12) ^ (0 + 1) +
            totalFrom 0 ((([(-3 : ℚ)].take (0 + 1)).map (fun x => max (-x) 0)).zip
              (List.replicate (0 + 1) ((0 : ℚ) / 12)))) :=
  ⟨rfl, by decide, claim7_compare_formula [5] [-3] 0 (1 / 10) 100 rfl 0 (by decide)⟩

/-! ### Claims C8 and C9 (error handling) -/

/-- Counterexample to C8: with inputs of unequal lengths (`[1, 1]` against
`[0]`) the accumulator returns a result instead of failing with an
InvalidInput error — `zip` silently truncates to the shorter input. -/
theorem claim8_counterexample :
    values_of_series_of_invest [1, 1] [0] true false = Except.ok (Sum.inl 1) := by
  norm_num [values_of_series_of_invest, totalFrom]

/-- C8 as amended: in end-of-period mode no length validation is performed;
for sequences of unequal lengths the function still returns a result, equal
to the run on the common-length prefixes of the two inputs. -/
theorem claim8_amended_truncation (invest rate : List ℚ) (fo : Bool)
    (_hne : invest.length ≠ rate.length) :
    (∃ v, values_of_series_of_invest invest rate fo false = Except.ok v) ∧
      values_of_series_of_invest invest rate fo false =
        values_of_series_of_invest (invest.take (min invest.length rate.length))
          (rate.take (min invest.length rate.length)) fo false := by
  have key : (invest.take (min invest.length rate.length)).zip
      (rate.take (min invest.length rate.length)) = invest.zip rate := by
    rw [← zip_take, ← List.length_zip, List.take_length]
  constructor
  · cases fo <;> exact ⟨_, rfl⟩
  · cases fo <;> simp only [values_of_series_of_invest, Bool.false_eq_true, if_false, key]

/-- Witness for C8's amended statement at `invest = [1, 1]`, `rate = [0]`. -/
theorem claim8_witness :
    ([(1 : ℚ), 1].length ≠ [(0 : ℚ)].length) ∧
      ((∃ v, values_of_series_of_invest [1, 1] [0] true false = Except.ok v) ∧
        values_of_series_of_invest [1, 1] [0] true false =
          values_of_series_of_invest ([(1 : ℚ), 1].take (min [(1 : ℚ), 1].length [(0 : ℚ)].length))
            ([(0 : ℚ)].take (min [(1 : ℚ), 1].length [(0 : ℚ)].length)) true false) :=
  ⟨by decide, claim8_amended_truncation [1, 1] [0] true (by decide)⟩

/-- Counterexample to C9: a non-positive `n_payment_per_year` (here `-1`)
with a zero loan rate makes `compute_mortg_principal` silently return a
numeric value (`-100`) instead of failing with an InvalidInput error. -/
theorem claim9_counterexample :
    compute_mortg_principal_run 0 100 1 (-1) = Except.ok (-100) := by
  norm_num [compute_mortg_principal_run, pyDiv]

/-- C9 as amended: `years_to_maturity = 0` or `n_payment_per_year = 0` makes
the computation raise `ZeroDivisionError` (an unhandled arithmetic exception,
not a descriptive InvalidInput error), so no numeric value is returned in
those cases; negative `n_payment_per_year` is not guarded at all. -/
theorem claim9_zero_inputs_raise (loan_rate loan_amount : ℚ) (years n_pay : ℤ)
    (h : years = 0 ∨ n_pay = 0) :
    compute_mortg_principal_run loan_rate loan_amount years n_pay =
      Except.error "ZeroDivisionError" := by
  rcases h with h | h
  · subst h
    by_cases hr : loan_rate = 0
    · simp [compute_mortg_principal_run, hr, pyDiv]
    · by_cases hq : (n_pay : ℚ) = 0
      · simp [compute_mortg_principal_run, hr, pyDiv, hq]
      · simp [compute_mortg_principal_run, hr, pyDiv, hq, pyPow, vos_final, totalFrom]
  · subst h
    by_cases hr : loan_rate = 0
    · simp [compute_mortg_principal_run, hr, pyDiv]
    · simp [compute_mortg_principal_run, hr, pyDiv]

/-- Witness for C9's amended statement at `years_to_maturity = 0`,
`n_payment_per_year = 12`. -/
theorem claim9_witness :
    ((0 : ℤ) = 0 ∨ (12 : ℤ) = 0) ∧
      compute_mortg_principal_run 1 100 0 12 = Except.error "ZeroDivisionError" :=
  ⟨Or.inl rfl, claim9_zero_inputs_raise 1 100 0 12 (Or.inl rfl)⟩

end HouseApp
